import Mathlib

/-!
Verification development for the `zenoh-orbcomm` node/client pair.

The definitions below are shallow embeddings of the Rust source:
  * `orb_actions.rs`   — the key scheme (`Query`, `Command`, `from_str`, `to_key`);
  * `bin/server.rs`    — property retrieval, the query responder, the command
    dispatcher and the shell-action helper;
  * `experiments/.../bin/server.rs` — the wait-for-acknowledgment shutdown
    coordinator and the discovery broadcaster;
  * `bin/client.rs`    — the query issuer's reply-printing loop.

Strings are modelled with Lean's `String`; external effects (shell execution,
the transport) are modelled as explicit oracles / value parameters.
-/

namespace OrbComm

/-- From `orb_actions.rs`: enum `Query { Name, Id, HardwareVersion }`. -/
inductive Query where
  | Name
  | Id
  | HardwareVersion
deriving DecidableEq, Repr

/-- From `orb_actions.rs`, `impl FromStr for Query`: a match on the exact
string literals `"name"`, `"id"`, `"hardware_version"`; anything else is an
error (modelled as `none`). -/
def Query.fromStr (s : String) : Option Query :=
  if s = "name" then some .Name
  else if s = "id" then some .Id
  else if s = "hardware_version" then some .HardwareVersion
  else none

/-- From `orb_actions.rs`, `Query::to_key`: `format!("orb/{}/name", orb_id)`
and friends, i.e. plain string concatenation. -/
def Query.to_key : Query → String → String
  | .Name, orb_id => "orb/" ++ orb_id ++ "/name"
  | .Id, orb_id => "orb/" ++ orb_id ++ "/id"
  | .HardwareVersion, orb_id => "orb/" ++ orb_id ++ "/hardware_version"

/-- From `orb_actions.rs`: enum `Command { Reboot, Shutdown, ResetGimbal }`. -/
inductive Command where
  | Reboot
  | Shutdown
  | ResetGimbal
deriving DecidableEq, Repr

/-- From `orb_actions.rs`, `impl FromStr for Command`: a match on the exact
string literals `"reboot"`, `"shutdown"`, `"reset_gimbal"`. -/
def Command.fromStr (s : String) : Option Command :=
  if s = "reboot" then some .Reboot
  else if s = "shutdown" then some .Shutdown
  else if s = "reset_gimbal" then some .ResetGimbal
  else none

/-- From `orb_actions.rs`, `Command::to_key`:
`format!("orb/{}/command/reboot", orb_id)` and friends. -/
def Command.to_key : Command → String → String
  | .Reboot, orb_id => "orb/" ++ orb_id ++ "/command/reboot"
  | .Shutdown, orb_id => "orb/" ++ orb_id ++ "/command/shutdown"
  | .ResetGimbal, orb_id => "orb/" ++ orb_id ++ "/command/reset_gimbal"

/-- The spec's `ActionKind`: the closed union of the two source enums
(`Query` and `Command` from `orb_actions.rs`). -/
inductive ActionKind where
  | query (q : Query)
  | command (c : Command)
deriving DecidableEq, Repr

/-- The spec's `parse`: combined from the two source `from_str`
implementations (the client tries `Query::from_str` for query tokens and
`Command::from_str` for command tokens; the six tokens are disjoint, so the
combination is canonical). -/
def ActionKind.parse (s : String) : Option ActionKind :=
  match Query.fromStr s with
  | some q => some (.query q)
  | none =>
    match Command.fromStr s with
    | some c => some (.command c)
    | none => none

/-- The spec's `toKey` on `ActionKind`, dispatching to the source `to_key`
of the matching family. -/
def ActionKind.to_key : ActionKind → String → String
  | .query q, orb_id => q.to_key orb_id
  | .command c, orb_id => c.to_key orb_id

/-- The six recognized textual tokens, in the order the spec lists them. -/
def recognizedTokens : List String :=
  ["name", "id", "hardware_version", "reboot", "shutdown", "reset_gimbal"]

/-- Modelled from the spec: the final path segment of a topic key — the
characters after the last `'/'`. No source function extracts segments (the
spec's `toKey(..).suffix` and "final path segment" need this notion); the
keys produced by `to_key` always end in a slash-free token, for which this
agrees with splitting on `'/'` and taking the last piece. -/
def finalSegment (s : String) : String :=
  ⟨(s.data.reverse.takeWhile (fun c => c ≠ '/')).reverse⟩

/-- Character-list model of Rust's `str::ends_with`, the primitive
`handle_commands` in `bin/server.rs` uses (`key.ends_with("shutdown")` and
friends): the second string's characters are a suffix of the first's. -/
def keyEndsWith (s suf : String) : Bool :=
  suf.data.isSuffixOf s.data

/-- Model of `std::process::Output` as the two servers consume it: the
exit-status success flag and the captured stdout/stderr (byte buffers are
modelled as the strings `from_utf8_lossy` turns them into at every use
site). -/
structure ShellOutput where
  status_success : Bool
  stdout : String
  stderr : String
deriving DecidableEq, Repr

/-- Model of `std::process::Command::output()`'s result: `ok` when the child
was spawned (with its `ShellOutput`), `error` with the io error text when
spawning failed. -/
abbrev ShellOutcome := Except String ShellOutput

/-- Character-list model of Rust's `str::trim`: drop leading whitespace,
then drop trailing whitespace (`Char.isWhitespace` stands in for Rust's
whitespace predicate). -/
def rustTrim (s : String) : String :=
  ⟨((s.data.dropWhile Char.isWhitespace).reverse.dropWhile Char.isWhitespace).reverse⟩

/-- From `bin/server.rs`, `get_orb_property`: a spawned command with success
status yields `Ok` of the trimmed stdout; a non-success status or a spawn
error is logged and yields `Ok` of the default. Every branch returns `Ok`.
The provider call's outcome is passed in explicitly. -/
def get_orb_property (outcome : ShellOutcome) (default : String) :
    Except String String :=
  match outcome with
  | .ok o => if o.status_success then .ok (rustTrim o.stdout) else .ok default
  | .error _ => .ok default

/-- The claim's notion of a failed provider invocation: the external call
failed to execute, or the child returned a non-success status. -/
def providerFailed : ShellOutcome → Bool
  | .ok o => !o.status_success
  | .error _ => true

/-- From `bin/server.rs`, `run_shell_command`: a success status yields the
raw (untrimmed) stdout; a non-success status or spawn failure yields an
`anyhow!` error (the message below keeps the command and stderr; the numeric
status display is elided). -/
def run_shell_command (command : String) (outcome : ShellOutcome) :
    Except String String :=
  match outcome with
  | .ok o =>
    if o.status_success then .ok o.stdout
    else .error ("Command '" ++ command ++ "' failed with status: " ++ o.stderr)
  | .error e => .error ("Failed to execute command '" ++ command ++ "': " ++ e)

/-- From `bin/server.rs`, the body of `handle_commands` for one inbound
message: suffix checks on the whole key in source order (`shutdown`, then
`reboot`, then `reset_gimbal`). Returns the list of shell commands invoked
together with the `response` value the source binds (the trailing `?` is
applied by `handleCommands`). The environment's reaction to `sh -c <cmd>` is
the oracle `env`. -/
def dispatchCommand (env : String → ShellOutcome) (key : String) :
    List String × Except String String :=
  if keyEndsWith key "shutdown" then
    (["shutdown now"], run_shell_command "shutdown now" (env "shutdown now"))
  else if keyEndsWith key "reboot" then
    (["sudo reboot"], run_shell_command "sudo reboot" (env "sudo reboot"))
  else if keyEndsWith key "reset_gimbal" then
    ([], .ok "Reset gimbal command executed successfully")
  else
    ([], .ok ("Error: Unknown command '" ++ key ++ "'"))

/-- From `bin/server.rs`, `handle_commands`: the receive loop over the
command subscription. The messages the channel delivers before closing are
modelled as a list of keys; `let response = (...)?;` returns the error from
the function immediately, and exhausting the list models the channel closing
(the `while let Ok` falls through to `Ok(())`). -/
def handleCommands (env : String → ShellOutcome) :
    List String → Except String Unit
  | [] => .ok ()
  | key :: rest =>
    match (dispatchCommand env key).2 with
    | .error e => .error e
    | .ok _ => handleCommands env rest

/-- The keys whose loop iteration `handle_commands` actually runs before
returning: all of them when no shell action fails, otherwise the prefix up
to and including the message whose action failed. -/
def processedKeys (env : String → ShellOutcome) :
    List String → List String
  | [] => []
  | key :: rest =>
    match (dispatchCommand env key).2 with
    | .error _ => [key]
    | .ok _ => key :: processedKeys env rest

/-- Model of the `HashMap::get` lookup `handle_queries` performs, on the
registry represented as an association list. -/
def mapGet (m : List (String × String)) (k : String) : Option String :=
  match m with
  | [] => none
  | (k', v) :: rest => if k' = k then some v else mapGet rest k

set_option linter.unusedVariables false in
/-- From `bin/server.rs`, the body of `handle_queries` for one inbound
request: reply with the value `orb_data` maps the requested key to, or with
the sentinel text. The request's payload is carried by the query but never
read by the source (hence the deliberately unused binder). -/
def handleQuery (orb_data : List (String × String)) (requested_key : String)
    (payload : String) : String :=
  match mapGet orb_data requested_key with
  | some v => v
  | none => "Error: no such resource"

/-- Model of a zenoh reply as the client receives it: `reply.result()` is
either a sample (its payload text) or a reply error. -/
abbrev Reply := Except String String

/-- From `bin/client.rs`, `perform_query`'s receive loop: for each reply
received before the first per-reply timeout (the list), print the payload
when `reply.result()` is `Ok`; an `Err` result falls through the `if let`
with no output. Returns the printed payloads in order. -/
def performQueryPrints : List Reply → List String
  | [] => []
  | .ok payload :: rest => payload :: performQueryPrints rest
  | .error _ :: rest => performQueryPrints rest

/-- From `experiments/zenoh-orbcomm/src/bin/server.rs`, `main`: the first
event the `tokio::select!` observes — a Ctrl+C termination request, or
`handle_commands` returning (with its result). -/
inductive FirstEvent where
  | ctrlC
  | dispatcherEnded (res : Except String Unit)

/-- From `experiments/zenoh-orbcomm/src/bin/server.rs`, `main`: whether the
select arm that ran sends on `shutdown_tx`. Only the Ctrl+C arm executes
`shutdown_tx.send(())`; the dispatcher-ended arm only logs the result. -/
def stopSignalSent : FirstEvent → Bool
  | .ctrlC => true
  | .dispatcherEnded _ => false

/-- From `experiments/zenoh-orbcomm/src/bin/server.rs`,
`broadcast_orb_id`: each loop iteration selects between the shutdown
receiver (which breaks out of the loop) and the sleep branch (which
publishes the orb id and continues). Run for `fuel` iterations with the stop
signal either delivered before the run or never (after the select in `main`
nothing else can send it); returns how many publishes were made and whether
the loop exited. -/
def broadcastRun (signalDelivered : Bool) : Nat → Nat × Bool
  | 0 => (0, false)
  | fuel + 1 =>
    if signalDelivered then (0, true)
    else
      let r := broadcastRun signalDelivered fuel
      (r.1 + 1, r.2)

/-- From `experiments/zenoh-orbcomm/src/bin/server.rs`, `main` after the
select: `broadcast_task.await?` — the process may reach its return only
once the broadcaster's loop has exited, and `broadcast_orb_id` exits only on
the stop signal. -/
def processTerminatesWithin (e : FirstEvent) (fuel : Nat) : Bool :=
  (broadcastRun (stopSignalSent e) fuel).2

/-- A string carries no surrounding whitespace: its first and last
characters (when present) are not whitespace. -/
def noEdgeWhitespace (s : String) : Bool :=
  (match s.data.head? with
   | some a => !a.isWhitespace
   | none => true) &&
  (match s.data.getLast? with
   | some a => !a.isWhitespace
   | none => true)

end OrbComm

/-! Theorems. -/

namespace OrbComm

/-- **C4.** Parsing a string into an `ActionKind` succeeds exactly when the
string is character-for-character one of the six tokens, yielding the
corresponding variant, and fails for every other string — no trimming, no
case folding, no partial matches. -/
theorem parse_succeeds_iff_recognized (s : String) :
    (s = "name" → ActionKind.parse s = some (.query .Name)) ∧
    (s = "id" → ActionKind.parse s = some (.query .Id)) ∧
    (s = "hardware_version" → ActionKind.parse s = some (.query .HardwareVersion)) ∧
    (s = "reboot" → ActionKind.parse s = some (.command .Reboot)) ∧
    (s = "shutdown" → ActionKind.parse s = some (.command .Shutdown)) ∧
    (s = "reset_gimbal" → ActionKind.parse s = some (.command .ResetGimbal)) ∧
    ((ActionKind.parse s).isSome ↔ s ∈ recognizedTokens) := by
  have hp : ActionKind.parse s =
      if s = "name" then some (.query .Name)
      else if s = "id" then some (.query .Id)
      else if s = "hardware_version" then some (.query .HardwareVersion)
      else if s = "reboot" then some (.command .Reboot)
      else if s = "shutdown" then some (.command .Shutdown)
      else if s = "reset_gimbal" then some (.command .ResetGimbal)
      else none := by
    unfold ActionKind.parse Query.fromStr Command.fromStr
    split_ifs <;> rfl
  rw [hp]
  simp only [recognizedTokens, List.mem_cons, List.not_mem_nil, or_false]
  split_ifs with h1 h2 h3 h4 h5 h6 <;> simp_all

/-- **C4 witness.** The theorem instantiated at the token `"reboot"` and at
a string outside the six tokens. -/
theorem parse_succeeds_iff_recognized_witness :
    ActionKind.parse "reboot" = some (.command .Reboot) ∧
    ¬ (ActionKind.parse "Reboot").isSome := by
  refine ⟨(parse_succeeds_iff_recognized "reboot").2.2.2.1 rfl, ?_⟩
  intro h
  have := ((parse_succeeds_iff_recognized "Reboot").2.2.2.2.2.2).mp h
  simp [recognizedTokens] at this

/-! Character-data values of the string literals the key templates use. -/

theorem dataOrbSlash : ("orb/" : String).data = ['o','r','b','/'] := rfl

theorem dataSlashName : ("/name" : String).data = ['/','n','a','m','e'] := rfl

theorem dataSlashId : ("/id" : String).data = ['/','i','d'] := rfl

theorem dataSlashHw : ("/hardware_version" : String).data
    = ['/','h','a','r','d','w','a','r','e','_','v','e','r','s','i','o','n'] := rfl

theorem dataSlashCmdReboot : ("/command/reboot" : String).data
    = ['/','c','o','m','m','a','n','d','/','r','e','b','o','o','t'] := rfl

theorem dataSlashCmdShutdown : ("/command/shutdown" : String).data
    = ['/','c','o','m','m','a','n','d','/','s','h','u','t','d','o','w','n'] := rfl

theorem dataSlashCmdReset : ("/command/reset_gimbal" : String).data
    = ['/','c','o','m','m','a','n','d','/','r','e','s','e','t','_','g','i','m','b','a','l'] := rfl

/-- `takeWhile` passes over a prefix whose elements all satisfy the
predicate. -/
theorem takeWhile_append_of_all (p : Char → Bool) (l₁ l₂ : List Char)
    (h : ∀ a ∈ l₁, p a = true) : (l₁ ++ l₂).takeWhile p = l₁ ++ l₂.takeWhile p := by
  induction l₁ with
  | nil => simp
  | cons a t ih =>
    simp only [List.cons_append, List.takeWhile]
    rw [h a (by simp)]
    simp only [List.cons.injEq, true_and]
    exact ih (fun x hx => h x (by simp [hx]))

/-- A string whose data splits as `pre ++ '/' :: tok` with `tok` slash-free
has final segment `tok`. -/
theorem finalSegment_eq (s : String) (pre tok : List Char)
    (hdata : s.data = pre ++ '/' :: tok) (htok : ∀ a ∈ tok, (a ≠ '/' : Bool)) :
    finalSegment s = ⟨tok⟩ := by
  unfold finalSegment
  congr 1
  rw [hdata]
  have h1 : (pre ++ '/' :: tok).reverse = tok.reverse ++ '/' :: pre.reverse := by
    simp [List.reverse_append, List.reverse_cons, List.append_assoc]
  rw [h1, takeWhile_append_of_all _ _ _ (fun a ha => htok a (List.mem_reverse.mp ha))]
  simp [List.takeWhile]

/-- The final segment of each generated topic key is exactly the variant's
token. -/
theorem finalSegment_to_key (k : ActionKind) (id : String) :
    finalSegment (k.to_key id) = match k with
      | .query .Name => "name"
      | .query .Id => "id"
      | .query .HardwareVersion => "hardware_version"
      | .command .Reboot => "reboot"
      | .command .Shutdown => "shutdown"
      | .command .ResetGimbal => "reset_gimbal" := by
  cases kicase : k with
  | query q =>
    cases q <;>
      exact finalSegment_eq _ (['o','r','b','/'] ++ id.data) _
        (by simp [ActionKind.to_key, Query.to_key, String.data_append, dataOrbSlash,
              dataSlashName, dataSlashId, dataSlashHw, List.append_assoc])
        (by decide)
  | command c =>
    cases c <;>
      exact finalSegment_eq _
        (['o','r','b','/'] ++ id.data ++ ['/','c','o','m','m','a','n','d']) _
        (by simp [ActionKind.to_key, Command.to_key, String.data_append, dataOrbSlash,
              dataSlashCmdReboot, dataSlashCmdShutdown, dataSlashCmdReset,
              List.append_assoc])
        (by decide)

/-- **C5.** For each of the six recognized variants and every NodeId,
parsing the final path segment of `toKey(kind, id)` returns exactly that
variant; `parse` applied to any string that is not one of the six tokens
fails. -/
theorem parse_inverse_of_to_key :
    (∀ (k : ActionKind) (id : String),
        ActionKind.parse (finalSegment (k.to_key id)) = some k) ∧
    (∀ s : String, s ∉ recognizedTokens → ActionKind.parse s = none) := by
  constructor
  · intro k id
    rw [finalSegment_to_key k id]
    cases k with
    | query q => cases q <;> rfl
    | command c => cases c <;> rfl
  · intro s hs
    have h := (parse_succeeds_iff_recognized s).2.2.2.2.2.2
    cases hp : ActionKind.parse s with
    | none => rfl
    | some a => exact absurd (h.mp (by rw [hp]; rfl)) hs

/-- **C5 witness.** The round trip at `(Command.Reboot, "orb1")` and parse
failure at the unrecognized string `"foo"`. -/
theorem parse_inverse_of_to_key_witness :
    ActionKind.parse (finalSegment ((ActionKind.command .Reboot).to_key "orb1"))
        = some (.command .Reboot) ∧
    ("foo" ∉ recognizedTokens ∧ ActionKind.parse "foo" = none) :=
  ⟨parse_inverse_of_to_key.1 (.command .Reboot) "orb1",
   by decide, parse_inverse_of_to_key.2 "foo" (by decide)⟩

/-- Full injectivity of the key templates (no non-emptiness needed): equal
keys force equal variants and equal ids. -/
theorem to_key_inj (k1 k2 : ActionKind) (id1 id2 : String)
    (heq : k1.to_key id1 = k2.to_key id2) : k1 = k2 ∧ id1 = id2 := by
  cases k1 <;> cases k2 <;> rename_i a b <;> cases a <;> cases b <;>
    simp only [ActionKind.to_key, Query.to_key, Command.to_key] at heq <;>
    (have hd := congrArg String.data heq;
     simp only [String.data_append, dataOrbSlash, dataSlashName, dataSlashId, dataSlashHw,
       dataSlashCmdReboot, dataSlashCmdShutdown, dataSlashCmdReset, List.append_assoc,
       List.cons_append, List.nil_append, List.cons.injEq, true_and] at hd) <;>
    first
      | exact ⟨rfl, String.ext (by rwa [List.append_left_inj] at hd)⟩
      | (exfalso; have hr := congrArg List.reverse hd;
         simp [List.reverse_append] at hr)

set_option linter.unusedVariables false in
/-- **C6.** For any two distinct `(ActionKind, NodeId)` pairs with non-empty
NodeIds, `toKey` produces distinct topic strings. (The non-emptiness
hypotheses are the claim's; `to_key_inj` shows they are not needed.) -/
theorem to_key_injective (k1 k2 : ActionKind) (id1 id2 : String)
    (h1 : id1 ≠ "") (h2 : id2 ≠ "") (hne : (k1, id1) ≠ (k2, id2)) :
    k1.to_key id1 ≠ k2.to_key id2 := by
  intro heq
  obtain ⟨hk, hid⟩ := to_key_inj k1 k2 id1 id2 heq
  exact hne (by rw [hk, hid])

/-- **C6 witness.** Two concrete distinct pairs with non-empty ids yield
distinct keys. -/
theorem to_key_injective_witness :
    ("orb1" : String) ≠ "" ∧ ("orb2" : String) ≠ "" ∧
    (ActionKind.query .Name).to_key "orb1" ≠ (ActionKind.query .Name).to_key "orb2" :=
  ⟨by decide, by decide,
   to_key_injective (.query .Name) (.query .Name) "orb1" "orb2"
     (by decide) (by decide) (by decide)⟩

/-- **C1 counterexample.** With an environment in which every shell spawn
fails, the dispatcher's loop does not survive the failed `sudo reboot`: it
returns that error instead of `Ok(())`, and the second message is never
processed — refuting "a non-success shell action does not terminate the
receive loop". -/
theorem handleCommands_stops_on_shell_error :
    handleCommands (fun _ => Except.error "boom")
        ["orb/orb1/command/reboot", "orb/orb1/command/reset_gimbal"]
      = .error "Failed to execute command 'sudo reboot': boom" ∧
    handleCommands (fun _ => Except.error "boom")
        ["orb/orb1/command/reboot", "orb/orb1/command/reset_gimbal"] ≠ .ok () ∧
    processedKeys (fun _ => Except.error "boom")
        ["orb/orb1/command/reboot", "orb/orb1/command/reset_gimbal"]
      = ["orb/orb1/command/reboot"] := by
  refine ⟨rfl, ?_, rfl⟩
  intro h
  rw [show handleCommands (fun _ => Except.error "boom")
        ["orb/orb1/command/reboot", "orb/orb1/command/reset_gimbal"]
      = .error "Failed to execute command 'sudo reboot': boom" from rfl] at h
  exact Except.noConfusion h

/-- **C1 (amended).** A non-success shell action terminates the dispatcher's
receive loop immediately, returning that error (subsequent messages are not
processed); the loop ends by channel closure with `Ok(())` exactly when
every message's action succeeds. -/
theorem handleCommands_error_propagates :
    (∀ (env : String → ShellOutcome) (msgs : List String),
        handleCommands env msgs = .ok () ↔
          ∀ k ∈ msgs, ((dispatchCommand env k).2).isOk = true) ∧
    (∀ (env : String → ShellOutcome) (key : String) (rest : List String) (e : String),
        (dispatchCommand env key).2 = .error e →
        handleCommands env (key :: rest) = .error e) := by
  constructor
  · intro env msgs
    induction msgs with
    | nil => simp [handleCommands]
    | cons key rest ih =>
      simp only [handleCommands, List.mem_cons]
      cases hd : (dispatchCommand env key).2 with
      | error e =>
        constructor
        · intro h
          exact absurd h (by simp)
        · intro h
          have hkey := h key (Or.inl rfl)
          rw [hd] at hkey
          simp [Except.isOk, Except.toBool] at hkey
      | ok v =>
        rw [ih]
        constructor
        · intro h k hk
          rcases hk with rfl | hk
          · rw [hd]; rfl
          · exact h k hk
        · intro h k hk
          exact h k (Or.inr hk)
  · intro env key rest e hd
    simp [handleCommands, hd]

/-- **C1 witness.** The amended theorem applied at a concrete failing
environment and message list. -/
theorem handleCommands_error_propagates_witness :
    (dispatchCommand (fun _ => Except.error "io down") "orb/orb9/command/reboot").2
      = .error "Failed to execute command 'sudo reboot': io down" ∧
    handleCommands (fun _ => Except.error "io down")
        ["orb/orb9/command/reboot", "orb/orb9/command/shutdown"]
      = .error "Failed to execute command 'sudo reboot': io down" :=
  ⟨rfl,
   handleCommands_error_propagates.2 (fun _ => Except.error "io down")
     "orb/orb9/command/reboot" ["orb/orb9/command/shutdown"]
     "Failed to execute command 'sudo reboot': io down" rfl⟩

/-- **C2 counterexample.** The key `"orb/orb1/command/myreboot"` has final
path segment `"myreboot"`, which is none of the six tokens, yet the
dispatcher executes the shell action `"sudo reboot"` on it — the source
matches with `key.ends_with(..)` over the whole key, not by exact
final-segment equality, refuting "any other final segment produces the
error text and executes nothing". -/
theorem dispatch_partial_match_counterexample :
    finalSegment "orb/orb1/command/myreboot" = "myreboot" ∧
    "myreboot" ∉ recognizedTokens ∧
    (dispatchCommand (fun _ => Except.ok ⟨true, "", ""⟩) "orb/orb1/command/myreboot")
      = (["sudo reboot"], .ok "") :=
  ⟨rfl, by decide, rfl⟩

/-! Character-data values of the three bare command tokens. -/

theorem dataReboot : ("reboot" : String).data = ['r','e','b','o','o','t'] := rfl

theorem dataShutdown : ("shutdown" : String).data
    = ['s','h','u','t','d','o','w','n'] := rfl

theorem dataResetGimbal : ("reset_gimbal" : String).data
    = ['r','e','s','e','t','_','g','i','m','b','a','l'] := rfl

/-- **C2 (amended).** The dispatcher selects the action by testing whether
the whole topic key ends with the token, in the order `shutdown`, `reboot`,
`reset_gimbal` — not by exact matching of the final path segment. On the
canonical command keys this yields exactly the claimed table: `reboot` runs
`"sudo reboot"`, `shutdown` runs `"shutdown now"`, `reset_gimbal` produces
the success text with no external action; and a key ending with none of the
three tokens produces `"Error: Unknown command '<key>'"` and executes
nothing. -/
theorem dispatchCommand_by_suffix (env : String → ShellOutcome) (id : String) :
    dispatchCommand env ((ActionKind.command .Shutdown).to_key id)
      = (["shutdown now"], run_shell_command "shutdown now" (env "shutdown now")) ∧
    dispatchCommand env ((ActionKind.command .Reboot).to_key id)
      = (["sudo reboot"], run_shell_command "sudo reboot" (env "sudo reboot")) ∧
    dispatchCommand env ((ActionKind.command .ResetGimbal).to_key id)
      = ([], .ok "Reset gimbal command executed successfully") ∧
    (∀ k : String, keyEndsWith k "shutdown" = false → keyEndsWith k "reboot" = false →
        keyEndsWith k "reset_gimbal" = false →
        dispatchCommand env k = ([], .ok ("Error: Unknown command '" ++ k ++ "'"))) := by
  refine ⟨?_, ?_, ?_, ?_⟩
  · have h1 : keyEndsWith ((ActionKind.command .Shutdown).to_key id) "shutdown" = true := by
      simp [keyEndsWith, ActionKind.to_key, Command.to_key, List.isSuffixOf,
        String.data_append, dataOrbSlash, dataSlashCmdShutdown, dataShutdown,
        List.reverse_append, List.isPrefixOf]
    simp [dispatchCommand, h1]
  · have h1 : keyEndsWith ((ActionKind.command .Reboot).to_key id) "shutdown" = false := by
      simp [keyEndsWith, ActionKind.to_key, Command.to_key, List.isSuffixOf,
        String.data_append, dataOrbSlash, dataSlashCmdReboot, dataShutdown,
        List.reverse_append, List.isPrefixOf]
    have h2 : keyEndsWith ((ActionKind.command .Reboot).to_key id) "reboot" = true := by
      simp [keyEndsWith, ActionKind.to_key, Command.to_key, List.isSuffixOf,
        String.data_append, dataOrbSlash, dataSlashCmdReboot, dataReboot,
        List.reverse_append, List.isPrefixOf]
    simp [dispatchCommand, h1, h2]
  · have h1 : keyEndsWith ((ActionKind.command .ResetGimbal).to_key id) "shutdown" = false := by
      simp [keyEndsWith, ActionKind.to_key, Command.to_key, List.isSuffixOf,
        String.data_append, dataOrbSlash, dataSlashCmdReset, dataShutdown,
        List.reverse_append, List.isPrefixOf]
    have h2 : keyEndsWith ((ActionKind.command .ResetGimbal).to_key id) "reboot" = false := by
      simp [keyEndsWith, ActionKind.to_key, Command.to_key, List.isSuffixOf,
        String.data_append, dataOrbSlash, dataSlashCmdReset, dataReboot,
        List.reverse_append, List.isPrefixOf]
    have h3 : keyEndsWith ((ActionKind.command .ResetGimbal).to_key id) "reset_gimbal" = true := by
      simp [keyEndsWith, ActionKind.to_key, Command.to_key, List.isSuffixOf,
        String.data_append, dataOrbSlash, dataSlashCmdReset, dataResetGimbal,
        List.reverse_append, List.isPrefixOf]
    simp [dispatchCommand, h1, h2, h3]
  · intro k h1 h2 h3
    simp [dispatchCommand, h1, h2, h3]

/-- **C2 witness.** The amended theorem applied at a concrete environment,
NodeId, and a key matching none of the suffixes. -/
theorem dispatchCommand_by_suffix_witness :
    dispatchCommand (fun _ => Except.ok ⟨true, "", ""⟩)
        ((ActionKind.command .Reboot).to_key "orb7")
      = (["sudo reboot"],
         run_shell_command "sudo reboot" ((fun _ => Except.ok ⟨true, "", ""⟩) "sudo reboot")) ∧
    dispatchCommand (fun _ => Except.ok ⟨true, "", ""⟩) "orb/orb7/unknown"
      = ([], .ok "Error: Unknown command 'orb/orb7/unknown'") :=
  ⟨(dispatchCommand_by_suffix (fun _ => Except.ok ⟨true, "", ""⟩) "orb7").2.1,
   (dispatchCommand_by_suffix (fun _ => Except.ok ⟨true, "", ""⟩) "orb7").2.2.2
     "orb/orb7/unknown" (by decide) (by decide) (by decide)⟩

/-- **C3 (the code at the failing scenario).** In the
wait-for-acknowledgment node, when the Command Dispatcher's loop ends before
any termination request, the select arm that runs never sends the stop
signal, so the broadcaster never observes one: it publishes on every
iteration and never exits its loop, and `broadcast_task.await` therefore
keeps the process from terminating, for any number of iterations. By
contrast a Ctrl+C first does deliver the signal and the broadcaster exits on
its next iteration. -/
theorem stop_signal_missing_on_dispatcher_end :
    stopSignalSent (.dispatcherEnded (.ok ())) = false ∧
    (∀ fuel : Nat,
        processTerminatesWithin (.dispatcherEnded (.ok ())) fuel = false ∧
        (broadcastRun (stopSignalSent (.dispatcherEnded (.ok ()))) fuel).1 = fuel) ∧
    stopSignalSent .ctrlC = true ∧
    (∀ fuel : Nat,
        processTerminatesWithin .ctrlC (fuel + 1) = true ∧
        (broadcastRun (stopSignalSent .ctrlC) (fuel + 1)).1 = 0) := by
  refine ⟨rfl, ?_, rfl, ?_⟩
  · intro fuel
    induction fuel with
    | zero => exact ⟨rfl, rfl⟩
    | succ n ih =>
      constructor
      · show (broadcastRun false (n + 1)).2 = false
        simp only [broadcastRun, if_neg (by decide : ¬ (false = true))]
        exact ih.1
      · show (broadcastRun false (n + 1)).1 = n + 1
        simp only [broadcastRun, if_neg (by decide : ¬ (false = true))]
        exact congrArg (· + 1) ih.2
  · intro fuel
    exact ⟨rfl, rfl⟩

/-- **C7.** Property retrieval is best-effort: for every provider outcome
`get_orb_property` returns `Ok` (it never aborts startup with an error), and
whenever the provider invocation failed to execute or returned a non-success
status, the result is exactly the fixed default string. -/
theorem get_orb_property_best_effort :
    (∀ (outcome : ShellOutcome) (d : String),
        (get_orb_property outcome d).isOk = true) ∧
    (∀ (outcome : ShellOutcome) (d : String),
        providerFailed outcome = true → get_orb_property outcome d = .ok d) := by
  constructor
  · intro outcome d
    cases outcome with
    | ok o =>
      cases hs : o.status_success <;>
        simp [get_orb_property, hs, Except.isOk, Except.toBool]
    | error e => rfl
  · intro outcome d hfail
    cases outcome with
    | ok o =>
      simp only [providerFailed, Bool.not_eq_true'] at hfail
      simp [get_orb_property, hfail]
    | error e => rfl

/-- **C7 witness.** A failed spawn and a non-success status both yield the
default. -/
theorem get_orb_property_best_effort_witness :
    providerFailed (.error "no such file") = true ∧
    get_orb_property (.error "no such file") "DevOrb" = .ok "DevOrb" ∧
    providerFailed (.ok ⟨false, "out", "err"⟩) = true ∧
    get_orb_property (.ok ⟨false, "out", "err"⟩) "UnknownOrb" = .ok "UnknownOrb" :=
  ⟨rfl, get_orb_property_best_effort.2 (.error "no such file") "DevOrb" rfl,
   rfl, get_orb_property_best_effort.2 (.ok ⟨false, "out", "err"⟩) "UnknownOrb" rfl⟩

/-- **C8.** The Query Responder replies with the value the registry maps the
requested key to when present, and with exactly `"Error: no such resource"`
otherwise; the request payload never influences the response. -/
theorem handleQuery_registry_lookup :
    (∀ (orb_data : List (String × String)) (k p₁ p₂ : String),
        handleQuery orb_data k p₁ = handleQuery orb_data k p₂) ∧
    (∀ (orb_data : List (String × String)) (k p v : String),
        mapGet orb_data k = some v → handleQuery orb_data k p = v) ∧
    (∀ (orb_data : List (String × String)) (k p : String),
        mapGet orb_data k = none →
        handleQuery orb_data k p = "Error: no such resource") := by
  refine ⟨fun _ _ _ _ => rfl, ?_, ?_⟩
  · intro orb_data k p v h
    simp [handleQuery, h]
  · intro orb_data k p h
    simp [handleQuery, h]

/-- **C8 witness.** The theorem applied to a concrete registry, a registered
key, and an unregistered key. -/
theorem handleQuery_registry_lookup_witness :
    mapGet [("orb/orb1/id", "orb1"), ("orb/orb1/name", "DevOrb")] "orb/orb1/id"
      = some "orb1" ∧
    handleQuery [("orb/orb1/id", "orb1"), ("orb/orb1/name", "DevOrb")]
        "orb/orb1/id" "ignored payload" = "orb1" ∧
    mapGet [("orb/orb1/id", "orb1"), ("orb/orb1/name", "DevOrb")] "orb/orb2/id"
      = none ∧
    handleQuery [("orb/orb1/id", "orb1"), ("orb/orb1/name", "DevOrb")]
        "orb/orb2/id" "" = "Error: no such resource" :=
  ⟨by decide,
   handleQuery_registry_lookup.2.1 _ "orb/orb1/id" "ignored payload" "orb1" (by decide),
   by decide,
   handleQuery_registry_lookup.2.2 _ "orb/orb2/id" "" (by decide)⟩

/-- **C9 counterexample.** A received reply whose `result()` is an error is
silently discarded by `perform_query`: one reply arrives, nothing is
printed — refuting "no received reply is silently discarded" and "malformed
or error-carrying replies are still printed". -/
theorem performQuery_drops_error_reply :
    performQueryPrints [Except.error "remote error"] = [] ∧
    ([Except.error "remote error"] : List Reply).length = 1 :=
  ⟨rfl, rfl⟩

/-- **C9 (amended).** Every reply received within the per-reply timeout
whose `result()` is a success sample has its payload printed, in order, with
the sentinel error text treated like any other payload; a reply whose
`result()` is an error is skipped without output. -/
theorem performQueryPrints_ok_replies :
    (∀ rs : List Reply, performQueryPrints rs = rs.filterMap Except.toOption) ∧
    (∀ (rs : List Reply) (s : String),
        Except.ok s ∈ rs → s ∈ performQueryPrints rs) := by
  have hfm : ∀ rs : List Reply, performQueryPrints rs = rs.filterMap Except.toOption := by
    intro rs
    induction rs with
    | nil => rfl
    | cons r rest ih =>
      cases r <;> simp [performQueryPrints, Except.toOption, ih]
  refine ⟨hfm, ?_⟩
  intro rs s hmem
  rw [hfm]
  exact List.mem_filterMap.mpr ⟨Except.ok s, hmem, rfl⟩

/-- **C9 witness.** The sentinel error text, arriving as a normal sample,
is printed like any other payload. -/
theorem performQueryPrints_ok_replies_witness :
    Except.ok "Error: no such resource"
      ∈ ([Except.ok "Error: no such resource"] : List Reply) ∧
    "Error: no such resource"
      ∈ performQueryPrints [Except.ok "Error: no such resource"] :=
  ⟨by simp,
   performQueryPrints_ok_replies.2 [Except.ok "Error: no such resource"]
     "Error: no such resource" (by simp)⟩

/-- The head of what `dropWhile` leaves behind does not satisfy the
predicate. -/
theorem head?_dropWhile_not (p : Char → Bool) (l : List Char) (a : Char)
    (h : (l.dropWhile p).head? = some a) : p a = false := by
  induction l with
  | nil => simp [List.dropWhile] at h
  | cons b t ih =>
    rw [List.dropWhile_cons] at h
    by_cases hb : p b = true
    · rw [if_pos hb] at h
      exact ih h
    · rw [if_neg hb] at h
      simp only [List.head?_cons, Option.some.injEq] at h
      rw [← h]
      exact Bool.not_eq_true _ |>.mp hb

/-- `dropWhile` keeps the last element when it leaves anything behind. -/
theorem getLast?_dropWhile (p : Char → Bool) (l : List Char)
    (h : l.dropWhile p ≠ []) : (l.dropWhile p).getLast? = l.getLast? := by
  induction l with
  | nil => simp [List.dropWhile] at h
  | cons b t ih =>
    rw [List.dropWhile_cons]
    rw [List.dropWhile_cons] at h
    by_cases hb : p b = true
    · rw [if_pos hb] at h ⊢
      cases t with
      | nil => simp [List.dropWhile] at h
      | cons c t' =>
        rw [List.getLast?_cons_cons]
        exact ih h
    · rw [if_neg hb]

/-- `rustTrim` leaves no whitespace at either end of its result. -/
theorem rustTrim_noEdgeWhitespace (s : String) :
    noEdgeWhitespace (rustTrim s) = true := by
  unfold rustTrim noEdgeWhitespace
  by_cases hqe : (s.data.dropWhile Char.isWhitespace).reverse.dropWhile Char.isWhitespace = []
  · simp [hqe]
  · rw [List.head?_reverse, List.getLast?_reverse]
    have hlast :
        ((s.data.dropWhile Char.isWhitespace).reverse.dropWhile Char.isWhitespace).getLast?
          = (s.data.dropWhile Char.isWhitespace).head? := by
      rw [getLast?_dropWhile _ _ hqe, List.getLast?_reverse]
    rw [hlast]
    cases hh : (s.data.dropWhile Char.isWhitespace).head? with
    | none =>
      exfalso
      apply hqe
      have : s.data.dropWhile Char.isWhitespace = [] := List.head?_eq_none_iff.mp hh
      rw [this]
      rfl
    | some a =>
      cases hq : ((s.data.dropWhile Char.isWhitespace).reverse.dropWhile
          Char.isWhitespace).head? with
      | none => exact absurd (List.head?_eq_none_iff.mp hq) hqe
      | some b =>
        have ha := head?_dropWhile_not Char.isWhitespace s.data a hh
        have hb := head?_dropWhile_not Char.isWhitespace
          (s.data.dropWhile Char.isWhitespace).reverse b hq
        simp [ha, hb]

/-- **C10.** A successful property-provider call registers the provider's
stdout with leading and trailing whitespace removed, whereas a successful
dispatcher shell action reports its stdout unmodified; and every value
`get_orb_property` can register under one of the three fixed defaults
carries no surrounding whitespace. -/
theorem registered_values_trimmed :
    (∀ (o : ShellOutput) (d c : String), o.status_success = true →
        get_orb_property (.ok o) d = .ok (rustTrim o.stdout) ∧
        run_shell_command c (.ok o) = .ok o.stdout) ∧
    (∀ (outcome : ShellOutcome) (d v : String),
        d ∈ ["UnknownOrb", "DevOrb", "UnknownHWVersion"] →
        get_orb_property outcome d = .ok v →
        noEdgeWhitespace v = true) := by
  constructor
  · intro o d c hs
    exact ⟨by simp [get_orb_property, hs], by simp [run_shell_command, hs]⟩
  · intro outcome d v hd hv
    have hdefault : noEdgeWhitespace d = true := by
      simp only [List.mem_cons, List.not_mem_nil, or_false] at hd
      rcases hd with rfl | rfl | rfl <;> decide
    cases outcome with
    | ok o =>
      cases hs : o.status_success
      · simp only [get_orb_property, hs, Bool.false_eq_true, if_false,
          Except.ok.injEq] at hv
        rw [← hv]
        exact hdefault
      · simp only [get_orb_property, hs, if_true, Except.ok.injEq] at hv
        rw [← hv]
        exact rustTrim_noEdgeWhitespace o.stdout
    | error e =>
      simp only [get_orb_property, Except.ok.injEq] at hv
      rw [← hv]
      exact hdefault

/-- **C10 witness.** The theorem applied at a concrete successful provider
output (with surrounding whitespace) and at a failed call falling back to a
default. -/
theorem registered_values_trimmed_witness :
    get_orb_property (.ok ⟨true, "  orb1\n", ""⟩) "UnknownOrb"
      = .ok (rustTrim "  orb1\n") ∧
    rustTrim "  orb1\n" = "orb1" ∧
    run_shell_command "orb-id" (.ok ⟨true, "  orb1\n", ""⟩) = .ok "  orb1\n" ∧
    noEdgeWhitespace "DevOrb" = true :=
  ⟨(registered_values_trimmed.1 ⟨true, "  orb1\n", ""⟩ "UnknownOrb" "orb-id" rfl).1,
   by decide,
   (registered_values_trimmed.1 ⟨true, "  orb1\n", ""⟩ "UnknownOrb" "orb-id" rfl).2,
   registered_values_trimmed.2 (.error "io error") "DevOrb" "DevOrb"
     (by decide) rfl⟩

end OrbComm
